import Mathlib

/-!
Shallow embedding of `examples/mnist/train.py` (MNIST training example).

Conventions of the embedding:
* numpy / jax arrays along their leading axis become Lean `List`s;
* scalars become `ℚ`;
* an image's pixel content is never inspected by the script, so an image is
  an opaque flat `List ℚ`;
* the external numerical framework (model initialisation, the forward pass of
  the CNN, automatic differentiation, the Momentum update rule) is opaque per
  the spec's non-goals and is passed in as a `Framework` record of functions;
* a Python exception becomes `Except String`.
-/

namespace MnistTrain

/-- An image: opaque pixel data (the script never inspects pixels after
`load_split` scales them). -/
abbrev Img := List ℚ

/-- Mean of a list of rationals, `jnp.mean` / `onp.mean` on a flat array
(sum divided by length). -/
def qmean (xs : List ℚ) : ℚ := xs.sum / (xs.length : ℚ)

/-- `onehot(labels, num_classes)` from train.py:
`(labels[..., None] == jnp.arange(num_classes)[None]).astype(float32)`:
row i has a 1 exactly in column `labels[i]`. -/
def onehot (labels : List ℕ) (num_classes : ℕ := 10) : List (List ℚ) :=
  labels.map (fun l => (List.range num_classes).map (fun j => if l = j then 1 else 0))

/-- Row dot product: elementwise `*` followed by `jnp.sum(..., axis=-1)` on one row. -/
def dotRow (xs ys : List ℚ) : ℚ := (List.zipWith (· * ·) xs ys).sum

/-- `cross_entropy_loss(logits, labels)` from train.py:
`-jnp.mean(jnp.sum(onehot(labels) * logits, axis=-1))`. -/
def cross_entropy_loss (logits : List (List ℚ)) (labels : List ℕ) : ℚ :=
  -qmean (List.zipWith dotRow (onehot labels) logits)

/-- `jnp.argmax(row)`: index of the first maximal entry of a row. -/
def argmaxRow (row : List ℚ) : ℕ :=
  (row.foldl
    (fun (acc : ℕ × ℕ × Option ℚ) x =>
      match acc with
      | (_, idx, none) => (idx, idx + 1, some x)
      | (best, idx, some bx) =>
          if bx < x then (idx, idx + 1, some x) else (best, idx + 1, some bx))
    (0, 0, none)).1

/-- Splits a list into `count` consecutive chunks of `size` elements each
(the semantics of `x.reshape((count, size) + rest)` along the leading axis;
numpy requires `count * size` to equal the length, which the callers'
preconditions guarantee). -/
def chunks (size : ℕ) : ℕ → List α → List (List α)
  | 0, _ => []
  | count + 1, xs => xs.take size :: chunks size count (xs.drop size)

/-- `shard(xs)` from train.py applied to one leaf array:
`x.reshape((jax.device_count(), -1) + x.shape[1:])`, i.e. split the leading
axis into `d` consecutive chunks of `len / d` examples. -/
def shard (d : ℕ) (xs : List α) : List (List α) := chunks (xs.length / d) d xs

/-- A dataset / un-sharded batch: the dict `{'image': ..., 'label': ...}`. -/
structure Dataset where
  image : List Img
  label : List ℕ
deriving Repr, DecidableEq

/-- A sharded batch: both leaves of the dict reshaped by `shard`, leading
axis = device axis. -/
structure ShardedBatch where
  image : List (List Img)
  label : List (List ℕ)
deriving Repr, DecidableEq

/-- `shard` applied to the whole batch dict (`jax.tree_map` over both leaves). -/
def shardBatch (d : ℕ) (b : Dataset) : ShardedBatch :=
  ⟨shard d b.image, shard d b.label⟩

/-- `{k: v[perm] for k, v in train_ds.items()}`: numpy fancy indexing of both
leaves by a permutation row (indices are in range for the actual permutations
numpy produces; out-of-range indices fall back to a default, never reached). -/
def selectBatch (ds : Dataset) (perm : List ℕ) : Dataset :=
  ⟨perm.map (fun i => ds.image.getD i []), perm.map (fun i => ds.label.getD i 0)⟩

/-- The metrics dict `{'loss': ..., 'accuracy': ...}`. -/
structure Metrics where
  loss : ℚ
  accuracy : ℚ
deriving Repr, DecidableEq

instance : Inhabited Metrics := ⟨⟨0, 0⟩⟩

/-- `compute_metrics(logits, labels, sharded=False)` from train.py: the
cross-entropy loss and the fraction of rows whose argmax equals the label. -/
def compute_metrics (logits : List (List ℚ)) (labels : List ℕ) : Metrics :=
  { loss := cross_entropy_loss logits labels,
    accuracy := qmean ((List.zipWith (fun row l => if argmaxRow row = l then (1 : ℚ) else 0)
      logits labels)) }

/-- `pmean(tree)` from train.py on one scalar leaf, seen across the device
axis of the enclosing `pmap`: `lax.psum(x, 'batch')` replaces every device's
value by the sum over all devices, then each is divided by
`jax.device_count()` (= `d`). -/
def pmean (d : ℕ) (xs : List ℚ) : List ℚ := xs.map (fun _ => xs.sum / (d : ℚ))

/-- `pmean` over the metrics dict: both leaves reduced across devices. -/
def pmeanMetrics (d : ℕ) (ms : List Metrics) : List Metrics :=
  List.zipWith Metrics.mk (pmean d (ms.map Metrics.loss)) (pmean d (ms.map Metrics.accuracy))

/-- `compute_metrics(logits, labels, sharded=True)` seen across the device
axis: per-device metrics followed by the cross-device `pmean`. -/
def compute_metrics_sharded (d : ℕ) (logitsPerDev : List (List (List ℚ)))
    (labelsPerDev : List (List ℕ)) : List Metrics :=
  pmeanMetrics d (List.zipWith compute_metrics logitsPerDev labelsPerDev)

/-- A flax `Optimizer`: the optimized model (`target`) plus the optimizer's
internal state (Momentum's velocity), both opaque. -/
structure Optim (M S : Type) where
  target : M
  state : S
deriving Repr, DecidableEq

/-- The opaque external capabilities the script delegates to (spec non-goals:
model initialisation and forward pass, automatic differentiation, the
Momentum update rule, cross-device gradient reduction). `M` = model
parameters, `S` = optimizer slot state, `G` = gradient values. -/
structure Framework (M S G : Type) where
  /-- `create_model`: `CNN.init_by_shape(key, ...)` followed by `nn.Model`. -/
  create_model : ℕ → M
  /-- `optim.Momentum(learning_rate, beta).create(model)`: the un-replicated
  initial optimizer. -/
  initOptimizer : ℚ → ℚ → M → Optim M S
  /-- The forward pass `model(images)`: per-example rows of 10 log-softmax
  logits. -/
  forward : M → List Img → List (List ℚ)
  /-- `jax.value_and_grad(loss_fn)`: the gradient of the loss at the given
  parameters on the given per-device shard. -/
  gradLoss : M → List Img → List ℕ → G
  /-- The cross-device average of per-device gradients (`lax.pmean` inside
  the replicated optimizer's `apply_gradient`). -/
  pmeanGrad : List G → G
  /-- The Momentum update rule applied on one device to the (already
  cross-device-averaged) gradient. -/
  update : Optim M S → G → Optim M S

/-- Modelled from the spec: `flax.optim`'s `Optimizer.replicate()` (flax
library code, not under src/) broadcasts one optimizer into identical
per-device replicas, one per device. -/
def replicate (d : ℕ) (o : Optim M S) : List (Optim M S) := List.replicate d o

/-- `create_optimizer(model, learning_rate, beta)` from train.py: build the
Momentum optimizer and replicate it across the `d` devices. -/
def create_optimizer (F : Framework M S G) (d : ℕ) (model : M)
    (learning_rate beta : ℚ) : List (Optim M S) :=
  replicate d (F.initOptimizer learning_rate beta model)

/-- Modelled from the spec: the replicated optimizer's `apply_gradient`
(flax.optim, not under src/) first reduces the per-device gradients with a
cross-device mean over the `pmap` axis, then applies the update rule with the
same averaged gradient on every device. -/
def apply_gradient (F : Framework M S G) (opts : List (Optim M S))
    (grads : List G) : List (Optim M S) :=
  let gbar := F.pmeanGrad grads
  opts.map (fun o => F.update o gbar)

/-- `train_step(optimizer, batch)` from train.py, seen across the device axis
of its `jax.pmap`: on each device, the forward pass at the current (pre-update)
parameters produces the logits, `value_and_grad` produces the gradient at the
same parameters, `apply_gradient` updates the optimizer, and the metrics are
computed from the pre-update logits (`sharded=True`). -/
def train_step (F : Framework M S G) (d : ℕ) (opts : List (Optim M S))
    (b : ShardedBatch) : List (Optim M S) × List Metrics :=
  let perDev := opts.zip (b.image.zip b.label)
  let logits := perDev.map (fun p => F.forward p.1.target p.2.1)
  let grads := perDev.map (fun p => F.gradLoss p.1.target p.2.1 p.2.2)
  let opts2 := apply_gradient F opts grads
  let metrics := compute_metrics_sharded d logits b.label
  (opts2, metrics)

/-- `eval_step(model, batch)` + `eval_model(model, test_ds)` from train.py:
an un-sharded forward pass over the whole test set, returning
`(summary['loss'], summary['accuracy'])`. -/
def eval_model (F : Framework M S G) (model : M) (test_ds : Dataset) : ℚ × ℚ :=
  let m := compute_metrics (F.forward model test_ds.image) test_ds.label
  (m.loss, m.accuracy)

/-- `device_get_first(xs)` from train.py: `jax.tree_map(lambda x: x[0], xs)`,
extracting replica 0. -/
def device_get_first [Inhabited α] (xs : List α) : α := xs.headD default

/-- `jax.random.PRNGKey(seed)`: a key is determined by its seed. -/
def PRNGKey (seed : ℕ) : ℕ := seed

/-- The state of a `numpy.random.RandomState` generator: its seed and how many
draws have been made so far. A given numpy version's draws are a pure function
of (seed, draw index), which `NumpyLib.permutation` supplies. -/
structure RandomState where
  seed : ℕ
  calls : ℕ
deriving Repr, DecidableEq

/-- `numpy.random.RandomState(seed)`. A call with an explicit seed (the script
passes the literal 0) ignores ambient OS entropy; only `RandomState(None)`
would consume it. -/
def RandomState.new (seedArg : Option ℕ) (osEntropy : ℕ) : RandomState :=
  ⟨seedArg.getD osEntropy, 0⟩

/-- The numpy generator algorithm, opaque: `permutation seed callIdx n` is the
shuffled `range n` that the `callIdx`-th draw of a `RandomState(seed)`
produces. numpy documents that it returns a permuted arangement of `n`
elements, so its length is `n`. -/
structure NumpyLib where
  permutation : ℕ → ℕ → ℕ → List ℕ
  length_permutation : ∀ s c n, (permutation s c n).length = n

/-- `rng.permutation(n)`: draw from the generator and advance its state. -/
def RandomState.permutation (lib : NumpyLib) (rs : RandomState) (n : ℕ) :
    List ℕ × RandomState :=
  (lib.permutation rs.seed rs.calls n, ⟨rs.seed, rs.calls + 1⟩)

/-- The batch orderings of one epoch, from train.py's `train_epoch`:
`perms = rng.permutation(len(train_ds['image']))`, truncated to
`steps_per_epoch * batch_size` entries and reshaped to
`(steps_per_epoch, batch_size)`. -/
def epochPerms (lib : NumpyLib) (rs : RandomState) (n batch_size : ℕ) :
    List (List ℕ) :=
  let steps_per_epoch := n / batch_size
  let p := (RandomState.permutation lib rs n).1
  chunks batch_size steps_per_epoch (p.take (steps_per_epoch * batch_size))

/-- The `for perm in perms:` loop of `train_epoch`: shard the selected batch,
run `train_step`, collect each step's (sharded) metrics in order. -/
def runSteps (F : Framework M S G) (d : ℕ) (ds : Dataset) :
    List (Optim M S) → List (List ℕ) → List (Optim M S) × List (List Metrics)
  | opts, [] => (opts, [])
  | opts, perm :: rest =>
      let batch := shardBatch d (selectBatch ds perm)
      let (opts2, metrics) := train_step F d opts batch
      let (optsF, ms) := runSteps F d ds opts2 rest
      (optsF, metrics :: ms)

/-- One `logging.info` record: train.py logs one train line per epoch (inside
`train_epoch`) and one eval line per epoch (inside `train`). -/
inductive LogEntry where
  | trainLine (epoch : ℕ) (loss accuracy : ℚ)
  | evalLine (epoch : ℕ) (loss accuracy : ℚ)
deriving Repr, DecidableEq

/-- The epoch-level averaging in `train_epoch`:
`onp.mean([metrics[k] for metrics in batch_metrics_np])` flattens the
steps-by-devices array of each key and takes its overall mean. -/
def epochMetricsOf (batch_metrics : List (List Metrics)) : Metrics :=
  { loss := qmean (batch_metrics.map (fun ms => ms.map Metrics.loss)).flatten,
    accuracy := qmean (batch_metrics.map (fun ms => ms.map Metrics.accuracy)).flatten }

/-- Whether a log record is the train-metrics line of epoch `e`. -/
def isTrainLineFor (e : ℕ) : LogEntry → Bool
  | .trainLine e2 _ _ => e2 == e
  | _ => false

/-- Whether a log record is the eval-metrics line of epoch `e`. -/
def isEvalLineFor (e : ℕ) : LogEntry → Bool
  | .evalLine e2 _ _ => e2 == e
  | _ => false

/-- The message of the `ValueError` raised by `train_epoch`. -/
def valueErrorMsg : String := "ValueError: Batch size must be divisible by the number of devices"

/-- The `IndexError` raised by `batch_metrics_np[0]` when no step ran. -/
def indexErrorMsg : String := "IndexError: list index out of range"

/-- `train_epoch(optimizer, train_ds, batch_size, epoch, rng)` from train.py:
raises `ValueError` if `batch_size % device_count > 0`; otherwise runs the
per-batch loop, averages the collected per-step (per-device) metric arrays
with `onp.mean` (which flattens the steps x devices array), logs one train
line, and returns the optimizer, epoch metrics, the log record, and the
advanced generator. `batch_metrics_np[0]` raises `IndexError` when zero steps
ran. -/
def train_epoch (F : Framework M S G) (lib : NumpyLib) (d : ℕ)
    (opts : List (Optim M S)) (train_ds : Dataset) (batch_size epoch : ℕ)
    (rs : RandomState) :
    Except String (List (Optim M S) × Metrics × List LogEntry × RandomState) :=
  if batch_size % d ≠ 0 then .error valueErrorMsg
  else
    let n := train_ds.image.length
    let perms := epochPerms lib rs n batch_size
    let rs2 : RandomState := ⟨rs.seed, rs.calls + 1⟩
    let (opts2, batch_metrics) := runSteps F d train_ds opts perms
    if batch_metrics.isEmpty then .error indexErrorMsg
    else
      let epoch_metrics := epochMetricsOf batch_metrics
      .ok (opts2, epoch_metrics,
        [.trainLine epoch epoch_metrics.loss epoch_metrics.accuracy], rs2)

/-- The flag values: `learning_rate`, `momentum`, `batch_size`, `num_epochs`. -/
structure Flags where
  learning_rate : ℚ
  momentum : ℚ
  batch_size : ℕ
  num_epochs : ℕ
deriving Repr, DecidableEq

/-- The `for epoch in range(1, num_epochs + 1):` loop of `train`: run
`train_epoch`, fetch replica 0 of the optimizer's target, evaluate on the test
set and log one eval line. `count` is the number of epochs still to run,
`epoch` the 1-based number of the next one. -/
def trainLoop [Inhabited M] (F : Framework M S G) (lib : NumpyLib) (d : ℕ)
    (train_ds test_ds : Dataset) (batch_size : ℕ) :
    ℕ → ℕ → List (Optim M S) → RandomState →
    Except String (List (Optim M S) × List LogEntry × RandomState)
  | 0, _, opts, rs => .ok (opts, [], rs)
  | count + 1, epoch, opts, rs => do
      let (opts2, _, epochLog, rs2) ←
        train_epoch F lib d opts train_ds batch_size epoch rs
      let optimizer_target := device_get_first (opts2.map Optim.target)
      let (loss, accuracy) := eval_model F optimizer_target test_ds
      let (optsF, restLog, rsF) ←
        trainLoop F lib d train_ds test_ds batch_size count (epoch + 1) opts2 rs2
      .ok (optsF, epochLog ++ [.evalLine epoch loss accuracy] ++ restLog, rsF)

/-- `train(train_ds, test_ds)` from train.py: fixed `PRNGKey(0)` for model
initialisation, fixed `RandomState(0)` for shuffling, then the epoch loop.
`osEntropy` is the ambient OS randomness a seedless generator would have
consumed; the script passes literal seeds. Returns the final (replicated)
optimizer and the log. -/
def train [Inhabited M] (F : Framework M S G) (lib : NumpyLib) (d : ℕ)
    (osEntropy : ℕ) (train_ds test_ds : Dataset) (flags : Flags) :
    Except String (List (Optim M S) × List LogEntry) := do
  let rng := PRNGKey 0
  let model := F.create_model rng
  let optimizer := create_optimizer F d model flags.learning_rate flags.momentum
  let input_rng := RandomState.new (some 0) osEntropy
  let (optsF, log, _) ←
    trainLoop F lib d train_ds test_ds flags.batch_size flags.num_epochs 1
      optimizer input_rng
  .ok (optsF, log)

/-- The batch orderings a run of `train` draws, epoch by epoch: `train_epoch`
advances the generator exactly once per epoch, so epoch `i` (0-based) draws at
call index `i` of the `RandomState(0)` stream. -/
def trainPerms (lib : NumpyLib) (osEntropy : ℕ) (train_ds : Dataset)
    (flags : Flags) : List (List (List ℕ)) :=
  let rs0 := RandomState.new (some 0) osEntropy
  (List.range flags.num_epochs).map (fun i =>
    epochPerms lib ⟨rs0.seed, rs0.calls + i⟩ train_ds.image.length flags.batch_size)

/-! ### The module's import statements and global name references

`train.py` is also a Python module: for it to run at all, every top-level
statement of the import section must parse and every module-level name it references
must be bound. The statements and referenced names below are transcribed from
the source text. -/

/-- One top-level import statement: `import m1, m2 [as a]` or
`from m import n1, n2`. -/
inductive ImportStmt where
  | importModules (modules : List String) (asName : Option String)
  | fromImport (module : String) (names : List String)
deriving Repr, DecidableEq

/-- Python's grammar requires at least one module / name after `import`. -/
def wellFormedImport : ImportStmt → Bool
  | .importModules ms _ => !ms.isEmpty
  | .fromImport _ ns => !ns.isEmpty

/-- The top-level import statements of train.py, in source order. Line 29 of
the file reads `import ` with no module name after the keyword. -/
def importLines : List ImportStmt :=
  [ .fromImport "absl" ["app"],
    .fromImport "absl" ["flags"],
    .fromImport "absl" ["logging"],
    .fromImport "flax" ["nn"],
    .fromImport "flax" ["optim"],
    .importModules [] none,
    .fromImport "jax" ["lax"],
    .fromImport "jax" ["random"],
    .importModules ["jax.numpy"] (some "jnp"),
    .importModules ["numpy"] (some "onp"),
    .importModules ["tensorflow_datasets"] (some "tfds") ]

/-- The module-level names an import statement binds: `from m import n` binds
`n`; `import m as a` binds `a`; `import m.sub` binds `m`. -/
def boundNames : ImportStmt → List String
  | .importModules ms (some a) => if ms.isEmpty then [] else [a]
  | .importModules ms none => ms.map (fun m => ((m.splitOn ".").headD m))
  | .fromImport _ ns => ns

/-- All names bound by train.py's import statements. -/
def importBoundNames : List String := (importLines.map boundNames).flatten

/-- The external (imported-module) names referenced by the body of train.py:
`flags` (flag definitions, `FLAGS`), `jax` (`jax.device_count`,
`jax.tree_map`, `jax.pmap`, `jax.jit`, `jax.value_and_grad`,
`jax.device_get`), `tfds` (`tfds.load`, `tfds.as_numpy`, `tfds.Split`),
`onp` (`onp.float32`, `onp.mean`, `onp.random.RandomState`), `nn` (layers),
`jnp` (array math), `optim` (`optim.Momentum`), `functools`
(`functools.partial` decorating `train_step`), `lax` (`lax.psum`), `random`
(`random.PRNGKey`), `logging` (`logging.info`), `app` (`app.run`). -/
def referencedGlobalNames : List String :=
  ["app", "flags", "logging", "nn", "optim", "jax", "lax", "random",
   "jnp", "onp", "tfds", "functools"]

/-! ### Concrete instances used to exercise the definitions -/

/-- A concrete `NumpyLib` whose permutation stream is the identity ordering
(a legitimate generator output), used to evaluate the definitions on explicit
inputs. -/
def idNumpy : NumpyLib :=
  ⟨fun _ _ n => List.range n, fun _ _ n => List.length_range n⟩

/-- A concrete framework over rational model parameters, gradients and slot
state, used to evaluate the definitions on explicit inputs: the forward pass
emits the parameter value as a single logit for every example, the gradient is
parameter + shard size, and the update subtracts the (averaged) gradient. -/
def demoF : Framework ℚ ℚ ℚ :=
  { create_model := fun k => (k : ℚ),
    initOptimizer := fun lr beta m => ⟨m, lr * beta⟩,
    forward := fun m imgs => imgs.map (fun _ => [m]),
    gradLoss := fun m imgs _ => m + (imgs.length : ℚ),
    pmeanGrad := fun gs => gs.sum / (gs.length : ℚ),
    update := fun o g => ⟨o.target - g, o.state⟩ }

/-- A concrete 4-example dataset (opaque single-pixel images, labels 0). -/
def demoDs : Dataset := ⟨[[0], [1], [2], [3]], [0, 0, 0, 0]⟩

/-- A concrete single-device sharded batch holding one example. -/
def demoBatch : ShardedBatch := ⟨[[[0]]], [[0]]⟩

/-- A concrete single-device replicated optimizer. -/
def demoOpts : List (Optim ℚ ℚ) := [⟨0, 0⟩]

/-- The metrics `train_step` would report on `demoBatch` if it recomputed them
from the post-update parameters (the optimizer returned by the step) instead
of the pre-update logits. -/
def demoPostMetrics : List Metrics :=
  compute_metrics_sharded 1
    (((train_step demoF 1 demoOpts demoBatch).1.zip
        (demoBatch.image.zip demoBatch.label)).map
      (fun p => demoF.forward p.1.target p.2.1)) demoBatch.label

/-! ## Helper lemmas -/

theorem chunks_length (size : ℕ) : ∀ (count : ℕ) (xs : List α),
    (chunks size count xs).length = count
  | 0, _ => rfl
  | count + 1, xs => by simp [chunks, chunks_length size count]

theorem chunks_mem_length (size : ℕ) : ∀ (count : ℕ) (xs : List α),
    xs.length = count * size → ∀ c ∈ chunks size count xs, c.length = size := by
  intro count
  induction count with
  | zero => intro xs _ c hc; simp [chunks] at hc
  | succ k ih =>
      intro xs hlen c hc
      simp only [chunks, List.mem_cons] at hc
      rcases hc with h | h
      · subst h
        rw [List.length_take, hlen, Nat.succ_mul]
        omega
      · exact ih (xs.drop size)
          (by rw [List.length_drop, hlen, Nat.succ_mul]; omega) c h

theorem chunks_flatten (size : ℕ) : ∀ (count : ℕ) (xs : List α),
    xs.length = count * size → (chunks size count xs).flatten = xs := by
  intro count
  induction count with
  | zero =>
      intro xs hlen
      have hx : xs = [] := List.eq_nil_of_length_eq_zero (by omega)
      simp [chunks, hx]
  | succ k ih =>
      intro xs hlen
      simp only [chunks, List.flatten_cons]
      rw [ih (xs.drop size) (by rw [List.length_drop, hlen, Nat.succ_mul]; omega)]
      exact List.take_append_drop size xs

theorem dot_zero_row : ∀ (n : ℕ) (ys : List ℚ),
    (List.zipWith (· * ·) (List.replicate n (0 : ℚ)) ys).sum = 0 := by
  intro n
  induction n with
  | zero => intro ys; simp
  | succ k ih =>
      intro ys
      cases ys with
      | nil => simp
      | cons b yt => simp [List.replicate_succ, ih yt]

theorem dot_onehotRow : ∀ (row : List ℚ) (l : ℕ), l < row.length →
    dotRow ((List.range row.length).map (fun j => if l = j then (1 : ℚ) else 0)) row =
      row.getD l 0 := by
  intro row
  induction row with
  | nil => intro l hl; simp at hl
  | cons a rest ih =>
      intro l hl
      rw [List.length_cons, List.range_succ_eq_map, List.map_cons, List.map_map]
      cases l with
      | zero =>
          simp only [dotRow, List.zipWith_cons_cons, List.sum_cons]
          have hz : ((List.range rest.length).map
              ((fun j => if 0 = j then (1 : ℚ) else 0) ∘ Nat.succ)) =
              (List.range rest.length).map (fun _ => (0 : ℚ)) := by
            apply List.map_congr_left
            intro j _
            simp
          rw [hz]
          simp [dot_zero_row]
      | succ m =>
          simp only [dotRow, List.zipWith_cons_cons, List.sum_cons]
          have hz : ((List.range rest.length).map
              ((fun j => if m + 1 = j then (1 : ℚ) else 0) ∘ Nat.succ)) =
              (List.range rest.length).map (fun j => if m = j then (1 : ℚ) else 0) := by
            apply List.map_congr_left
            intro j _
            simp [Function.comp, Nat.succ_eq_add_one]
          have hm : m < rest.length := by
            rw [List.length_cons] at hl; omega
          rw [hz]
          have := ih m hm
          simp only [dotRow] at this
          simp [this]

theorem zip_onehot_dot : ∀ (logits : List (List ℚ)) (labels : List ℕ),
    (∀ row ∈ logits, row.length = 10) → (∀ l ∈ labels, l < 10) →
    List.zipWith dotRow (onehot labels) logits =
      List.zipWith (fun (row : List ℚ) (l : ℕ) => row.getD l 0) logits labels := by
  intro logits
  induction logits with
  | nil => intro labels _ _; simp [onehot]
  | cons row rest ih =>
      intro labels hrows hlab
      cases labels with
      | nil => simp [onehot]
      | cons l ls =>
          have hrow : row.length = 10 := hrows row (by simp)
          have hl10 : l < 10 := hlab l (by simp)
          simp only [onehot, List.map_cons, List.zipWith_cons_cons]
          have hhead : dotRow ((List.range 10).map (fun j => if l = j then (1 : ℚ) else 0))
              row = row.getD l 0 := by
            rw [← hrow]
            exact dot_onehotRow row l (by omega)
          rw [hhead]
          have htail := ih ls (fun r hr => hrows r (by simp [hr]))
            (fun x hx => hlab x (by simp [hx]))
          simp only [onehot] at htail
          rw [htail]

/-! ## Claim theorems -/

/-- C8: for every logits matrix with 10 columns and every label vector of the
same number of rows with entries in {0,...,9}, `cross_entropy_loss`
equals the negation of the mean over rows i of `logits[i, labels[i]]`,
because `onehot(labels)` selects exactly the column indexed by each label. -/
theorem c8_cross_entropy_selects_label_column (logits : List (List ℚ)) (labels : List ℕ)
    (hrows : ∀ row ∈ logits, row.length = 10)
    (_hlen : labels.length = logits.length)
    (hlab : ∀ l ∈ labels, l < 10) :
    cross_entropy_loss logits labels =
      -qmean (List.zipWith (fun (row : List ℚ) (l : ℕ) => row.getD l 0) logits labels) := by
  unfold cross_entropy_loss
  rw [zip_onehot_dot logits labels hrows hlab]

/-- Witness for C8 at a concrete 2-by-10 logits matrix and labels [3, 0]. -/
theorem c8_witness :
    cross_entropy_loss [[0, 1, 2, 3, 4, 5, 6, 7, 8, 9], [9, 8, 7, 6, 5, 4, 3, 2, 1, 0]]
      [3, 0] =
      -qmean (List.zipWith (fun (row : List ℚ) (l : ℕ) => row.getD l 0)
        [[0, 1, 2, 3, 4, 5, 6, 7, 8, 9], [9, 8, 7, 6, 5, 4, 3, 2, 1, 0]] [3, 0]) :=
  c8_cross_entropy_selects_label_column
    [[0, 1, 2, 3, 4, 5, 6, 7, 8, 9], [9, 8, 7, 6, 5, 4, 3, 2, 1, 0]] [3, 0]
    (by decide) (by decide) (by decide)

/-- C1 fails on the code: line 29 of train.py is the bare statement
`import ` (no module name), which Python's grammar rejects, and neither
`functools` (used by the decorator on `train_step`) nor `jax` (used
throughout, starting at the `batch_size` flag default) is ever bound by
any importing statement. Evaluating the transcribed list shows the
malformed statement and the two referenced-but-unbound names. -/
theorem c1_imports_broken :
    importLines.all wellFormedImport = false
    ∧ "functools" ∈ referencedGlobalNames
    ∧ "functools" ∉ importBoundNames
    ∧ "jax" ∈ referencedGlobalNames
    ∧ "jax" ∉ importBoundNames := by
  refine ⟨by decide, by decide, by decide, by decide, by decide⟩

/-- C2: in every training step, the logits come from the forward pass at the
current (pre-update) parameters, the gradient is taken at the same pre-update
parameters, the update is applied to the optimizer, and the reported metrics
are computed from the pre-update logits and the batch labels — not from the
post-update model, as the concrete instance in the second conjunct shows
(recomputing the metrics from the updated optimizer gives a different
result). -/
theorem c2_metrics_from_pre_update_params :
    (∀ (M S G : Type) (F : Framework M S G) (d : ℕ) (opts : List (Optim M S))
        (b : ShardedBatch),
      (train_step F d opts b).2 =
        compute_metrics_sharded d
          ((opts.zip (b.image.zip b.label)).map (fun p => F.forward p.1.target p.2.1))
          b.label
      ∧ (train_step F d opts b).1 =
        apply_gradient F opts
          ((opts.zip (b.image.zip b.label)).map
            (fun p => F.gradLoss p.1.target p.2.1 p.2.2)))
    ∧ demoPostMetrics ≠ (train_step demoF 1 demoOpts demoBatch).2 := by
  constructor
  · intro M S G F d opts b
    exact ⟨rfl, rfl⟩
  · norm_num [demoPostMetrics, train_step, demoF, demoOpts, demoBatch,
      compute_metrics_sharded, compute_metrics, pmeanMetrics, pmean,
      cross_entropy_loss, qmean, onehot, dotRow, argmaxRow, apply_gradient,
      List.range_succ]

/-- C3 fails on the code: `train_epoch` itself raises. At device count 2 and
batch size 3 it raises `ValueError('Batch size must be divisible by the
number of devices')` (train.py lines 156-157), so it is not true that no
operation of the script raises an error for every input. -/
theorem c3_counterexample :
    train_epoch demoF idNumpy 2 demoOpts demoDs 3 1 ⟨0, 0⟩ = .error valueErrorMsg := rfl

/-- C3 amended: the script has no failure-handling (no try/except, no retry),
but it does raise: `train_epoch` raises the divisibility `ValueError` exactly
when `batch_size % device_count > 0` (and no other operation of the script
raises that error). -/
theorem c3_value_error_iff_indivisible (M S G : Type) (F : Framework M S G)
    (lib : NumpyLib) (d : ℕ) (opts : List (Optim M S)) (ds : Dataset)
    (bs e : ℕ) (rs : RandomState) :
    train_epoch F lib d opts ds bs e rs = .error valueErrorMsg ↔ bs % d ≠ 0 := by
  unfold train_epoch
  by_cases h : bs % d = 0
  · simp only [h, ne_eq, not_true_eq_false, if_false, ite_false]
    split
    · simp [valueErrorMsg, indexErrorMsg]
    · simp [h]
  · simp [h]

/-- Witness for the amended C3 at device count 2, batch size 4 (no error)
and the iff instantiated concretely. -/
theorem c3_amended_witness :
    (train_epoch demoF idNumpy 2 demoOpts demoDs 4 1 ⟨0, 0⟩ = .error valueErrorMsg
      ↔ 4 % 2 ≠ 0) :=
  c3_value_error_iff_indivisible ℚ ℚ ℚ demoF idNumpy 2 demoOpts demoDs 4 1 ⟨0, 0⟩

theorem zipWith_replicate_mk : ∀ (n : ℕ) (a b : ℚ),
    List.zipWith Metrics.mk (List.replicate n a) (List.replicate n b) =
      List.replicate n ⟨a, b⟩ := by
  intro n
  induction n with
  | zero => intro a b; rfl
  | succ k ih => intro a b; simp [List.replicate_succ, ih]

theorem pmeanMetrics_eq_replicate (d : ℕ) (ms : List Metrics) (hms : ms.length = d) :
    pmeanMetrics d ms =
      List.replicate d ⟨qmean (ms.map Metrics.loss), qmean (ms.map Metrics.accuracy)⟩ := by
  unfold pmeanMetrics pmean qmean
  rw [List.map_const', List.map_const']
  simp only [List.length_map, hms]
  rw [zipWith_replicate_mk]

/-- C6: when the device axis has length d, `pmean` maps each leaf to the
cross-device sum divided by d — the arithmetic mean of the per-device values —
and every device ends up holding that same value (the result is a constant
`List.replicate`); consequently the sharded metrics `compute_metrics` returns
are the mean of the per-device metric values on every device. -/
theorem c6_pmean_is_cross_device_mean (d : ℕ) (xs : List ℚ) (ms : List Metrics)
    (lg : List (List (List ℚ))) (lb : List (List ℕ))
    (hxs : xs.length = d) (hms : ms.length = d)
    (hlglb : (List.zipWith compute_metrics lg lb).length = d) :
    pmean d xs = List.replicate d (qmean xs)
    ∧ pmeanMetrics d ms =
        List.replicate d ⟨qmean (ms.map Metrics.loss), qmean (ms.map Metrics.accuracy)⟩
    ∧ compute_metrics_sharded d lg lb =
        List.replicate d
          ⟨qmean ((List.zipWith compute_metrics lg lb).map Metrics.loss),
           qmean ((List.zipWith compute_metrics lg lb).map Metrics.accuracy)⟩ := by
  refine ⟨?_, pmeanMetrics_eq_replicate d ms hms, pmeanMetrics_eq_replicate d _ hlglb⟩
  unfold pmean qmean
  rw [List.map_const', hxs]

/-- Witness for C6 on a concrete two-device metrics tree. -/
theorem c6_witness :
    pmean 2 [1, 3] = List.replicate 2 (qmean [1, 3])
    ∧ pmeanMetrics 2 [⟨1, 0⟩, ⟨3, 1⟩] =
        List.replicate 2 ⟨qmean ([⟨1, 0⟩, ⟨3, 1⟩].map Metrics.loss),
                          qmean ([⟨1, 0⟩, ⟨3, 1⟩].map Metrics.accuracy)⟩
    ∧ compute_metrics_sharded 2 [[[0]], [[1]]] [[0], [0]] =
        List.replicate 2
          ⟨qmean ((List.zipWith compute_metrics [[[0]], [[1]]] [[0], [0]]).map Metrics.loss),
           qmean ((List.zipWith compute_metrics [[[0]], [[1]]] [[0], [0]]).map
             Metrics.accuracy)⟩ :=
  c6_pmean_is_cross_device_mean 2 [1, 3] [⟨1, 0⟩, ⟨3, 1⟩] [[[0]], [[1]]] [[0], [0]]
    (by decide) (by decide) (by decide)

theorem shard_spec (d : ℕ) (xs : List α) (bs : ℕ) (hxs : xs.length = bs)
    (hdvd : d ∣ bs) :
    (shard d xs).length = d ∧ (∀ c ∈ shard d xs, c.length = bs / d)
      ∧ (shard d xs).flatten = xs := by
  have hdx : d ∣ xs.length := hxs ▸ hdvd
  have hlen : xs.length = d * (xs.length / d) := (Nat.mul_div_cancel' hdx).symm
  refine ⟨chunks_length _ d xs, ?_, chunks_flatten _ d xs hlen⟩
  intro c hc
  rw [← hxs]
  exact chunks_mem_length (xs.length / d) d xs hlen c hc

theorem epochPerms_mem_length (lib : NumpyLib) (rs : RandomState) (n bs : ℕ) :
    ∀ perm ∈ epochPerms lib rs n bs, perm.length = bs := by
  intro perm hperm
  simp only [epochPerms] at hperm
  refine chunks_mem_length bs (n / bs) _ ?_ perm hperm
  rw [List.length_take, RandomState.permutation, lib.length_permutation]
  exact Nat.min_eq_left (Nat.div_mul_le_self _ _)

/-- C5: under the precondition that the batch size is divisible by the device
count, every batch `train_epoch` feeds to `train_step` (one per row of
`epochPerms`, sharded by `shardBatch d ∘ selectBatch ds` in `runSteps`) is
reshaped so that each of its arrays has leading axis `d`, each device gets
exactly `batch_size / d` consecutive examples, and flattening the shards
recovers all selected examples in order. -/
theorem c5_shard_partitions (lib : NumpyLib) (d bs : ℕ) (ds : Dataset)
    (rs : RandomState) (hdvd : d ∣ bs) :
    ∀ perm ∈ epochPerms lib rs ds.image.length bs,
      ((shard d (selectBatch ds perm).image).length = d
        ∧ (∀ c ∈ shard d (selectBatch ds perm).image, c.length = bs / d)
        ∧ (shard d (selectBatch ds perm).image).flatten = (selectBatch ds perm).image)
      ∧ ((shard d (selectBatch ds perm).label).length = d
        ∧ (∀ c ∈ shard d (selectBatch ds perm).label, c.length = bs / d)
        ∧ (shard d (selectBatch ds perm).label).flatten = (selectBatch ds perm).label) := by
  intro perm hperm
  have hpl : perm.length = bs := epochPerms_mem_length lib rs ds.image.length bs perm hperm
  constructor
  · exact shard_spec d _ bs (by simp [selectBatch, hpl]) hdvd
  · exact shard_spec d _ bs (by simp [selectBatch, hpl]) hdvd

/-- Witness for C5: two devices, batch size 2, the 4-example dataset, at the
first drawn permutation row [0, 1]. -/
theorem c5_witness :
    ((shard 2 (selectBatch demoDs [0, 1]).image).length = 2
      ∧ (∀ c ∈ shard 2 (selectBatch demoDs [0, 1]).image, c.length = 2 / 2)
      ∧ (shard 2 (selectBatch demoDs [0, 1]).image).flatten = (selectBatch demoDs [0, 1]).image)
    ∧ ((shard 2 (selectBatch demoDs [0, 1]).label).length = 2
      ∧ (∀ c ∈ shard 2 (selectBatch demoDs [0, 1]).label, c.length = 2 / 2)
      ∧ (shard 2 (selectBatch demoDs [0, 1]).label).flatten = (selectBatch demoDs [0, 1]).label) :=
  c5_shard_partitions idNumpy 2 2 demoDs ⟨0, 0⟩ (by decide) [0, 1] (by decide)

theorem const_list_eq_replicate_headD [Inhabited α] (L : List α)
    (h : ∀ x ∈ L, ∀ y ∈ L, x = y) : L = List.replicate L.length (L.headD default) := by
  cases L with
  | nil => rfl
  | cons a t =>
      apply List.eq_replicate_length.mpr
      intro b hb
      exact h b hb a (by simp)

/-- C9: after `create_optimizer` (a broadcast) all per-device optimizer
replicas are equal; `train_step` preserves this (each device applies the same
update to the same state with the same cross-device-averaged gradient), hence
after any number of steps all replicas are still equal, and
`device_get_first`, which extracts replica 0 of the targets, loses no
information: the replicated target list is a constant `List.replicate` of the
extracted value. -/
theorem c9_replicas_stay_equal (M S G : Type) [Inhabited M] (F : Framework M S G)
    (d : ℕ) (model : M) (lr beta : ℚ) (opts : List (Optim M S)) (b : ShardedBatch)
    (ds : Dataset) (perms : List (List ℕ))
    (h : ∀ x ∈ opts, ∀ y ∈ opts, x = y) :
    create_optimizer F d model lr beta = List.replicate d (F.initOptimizer lr beta model)
    ∧ (∀ x ∈ (train_step F d opts b).1, ∀ y ∈ (train_step F d opts b).1, x = y)
    ∧ (∀ x ∈ (runSteps F d ds opts perms).1, ∀ y ∈ (runSteps F d ds opts perms).1, x = y)
    ∧ (runSteps F d ds opts perms).1.map Optim.target =
        List.replicate ((runSteps F d ds opts perms).1.map Optim.target).length
          (device_get_first ((runSteps F d ds opts perms).1.map Optim.target)) := by
  have hstep : ∀ (opts2 : List (Optim M S)) (b2 : ShardedBatch),
      (∀ x ∈ opts2, ∀ y ∈ opts2, x = y) →
      ∀ x ∈ (train_step F d opts2 b2).1, ∀ y ∈ (train_step F d opts2 b2).1, x = y := by
    intro opts2 b2 hc x hx y hy
    have he : (train_step F d opts2 b2).1 =
        opts2.map (fun o => F.update o (F.pmeanGrad
          ((opts2.zip (b2.image.zip b2.label)).map
            (fun p => F.gradLoss p.1.target p.2.1 p.2.2)))) := rfl
    rw [he] at hx hy
    simp only [List.mem_map] at hx hy
    obtain ⟨xa, hxa, rfl⟩ := hx
    obtain ⟨ya, hya, rfl⟩ := hy
    rw [hc xa hxa ya hya]
  have hrun : ∀ (perms2 : List (List ℕ)) (opts2 : List (Optim M S)),
      (∀ x ∈ opts2, ∀ y ∈ opts2, x = y) →
      ∀ x ∈ (runSteps F d ds opts2 perms2).1, ∀ y ∈ (runSteps F d ds opts2 perms2).1,
        x = y := by
    intro perms2
    induction perms2 with
    | nil => intro opts2 hc; simpa [runSteps] using hc
    | cons p rest ih =>
        intro opts2 hc
        have he : (runSteps F d ds opts2 (p :: rest)).1 =
            (runSteps F d ds (train_step F d opts2
              (shardBatch d (selectBatch ds p))).1 rest).1 := rfl
        rw [he]
        exact ih _ (hstep opts2 _ hc)
  refine ⟨rfl, hstep opts b h, hrun perms opts h, ?_⟩
  apply const_list_eq_replicate_headD
  intro x hx y hy
  simp only [List.mem_map] at hx hy
  obtain ⟨xa, hxa, rfl⟩ := hx
  obtain ⟨ya, hya, rfl⟩ := hy
  rw [hrun perms opts h xa hxa ya hya]

/-- Witness for C9: two equal single-parameter replicas, two steps. -/
theorem c9_witness :
    create_optimizer demoF 2 0 1 1 = List.replicate 2 (demoF.initOptimizer 1 1 0)
    ∧ (∀ x ∈ (train_step demoF 2 [⟨0, 0⟩, ⟨0, 0⟩] demoBatch).1,
        ∀ y ∈ (train_step demoF 2 [⟨0, 0⟩, ⟨0, 0⟩] demoBatch).1, x = y)
    ∧ (∀ x ∈ (runSteps demoF 2 demoDs [⟨0, 0⟩, ⟨0, 0⟩] [[0, 1], [2, 3]]).1,
        ∀ y ∈ (runSteps demoF 2 demoDs [⟨0, 0⟩, ⟨0, 0⟩] [[0, 1], [2, 3]]).1, x = y)
    ∧ (runSteps demoF 2 demoDs [⟨0, 0⟩, ⟨0, 0⟩] [[0, 1], [2, 3]]).1.map Optim.target =
        List.replicate
          ((runSteps demoF 2 demoDs [⟨0, 0⟩, ⟨0, 0⟩] [[0, 1], [2, 3]]).1.map
            Optim.target).length
          (device_get_first
            ((runSteps demoF 2 demoDs [⟨0, 0⟩, ⟨0, 0⟩] [[0, 1], [2, 3]]).1.map
              Optim.target)) :=
  c9_replicas_stay_equal ℚ ℚ ℚ demoF 2 0 1 1 [⟨0, 0⟩, ⟨0, 0⟩] demoBatch demoDs
    [[0, 1], [2, 3]] (by decide)

theorem runSteps_snd_length (F : Framework M S G) (d : ℕ) (ds : Dataset) :
    ∀ (perms : List (List ℕ)) (opts : List (Optim M S)),
      (runSteps F d ds opts perms).2.length = perms.length := by
  intro perms
  induction perms with
  | nil => intro opts; rfl
  | cons p rest ih =>
      intro opts
      have he : (runSteps F d ds opts (p :: rest)).2 =
          (train_step F d opts (shardBatch d (selectBatch ds p))).2 ::
            (runSteps F d ds (train_step F d opts
              (shardBatch d (selectBatch ds p))).1 rest).2 := rfl
      rw [he, List.length_cons, ih, List.length_cons]

theorem train_step_fst_length (F : Framework M S G) (d : ℕ)
    (opts : List (Optim M S)) (b : ShardedBatch) :
    (train_step F d opts b).1.length = opts.length := by
  have he : (train_step F d opts b).1 =
      opts.map (fun o => F.update o (F.pmeanGrad
        ((opts.zip (b.image.zip b.label)).map
          (fun p => F.gradLoss p.1.target p.2.1 p.2.2)))) := rfl
  rw [he, List.length_map]

theorem train_step_metrics_replicate (F : Framework M S G) (d : ℕ)
    (opts : List (Optim M S)) (b0 : Dataset) (hopts : opts.length = d) :
    ∃ v, (train_step F d opts (shardBatch d b0)).2 = List.replicate d v := by
  have hlibrary : (shardBatch d b0).label.length = d := chunks_length _ d _
  have himg : (shardBatch d b0).image.length = d := chunks_length _ d _
  have he : (train_step F d opts (shardBatch d b0)).2 =
      pmeanMetrics d (List.zipWith compute_metrics
        ((opts.zip ((shardBatch d b0).image.zip (shardBatch d b0).label)).map
          (fun p => F.forward p.1.target p.2.1))
        (shardBatch d b0).label) := rfl
  rw [he]
  refine ⟨_, pmeanMetrics_eq_replicate d _ ?_⟩
  simp [hopts, himg, hlibrary]

theorem runSteps_metrics_replicate (F : Framework M S G) (d : ℕ) (ds : Dataset) :
    ∀ (perms : List (List ℕ)) (opts : List (Optim M S)), opts.length = d →
      ∀ ms ∈ (runSteps F d ds opts perms).2, ∃ v, ms = List.replicate d v := by
  intro perms
  induction perms with
  | nil => intro opts _ ms hms; simp [runSteps] at hms
  | cons p rest ih =>
      intro opts hopts ms hms
      have he : (runSteps F d ds opts (p :: rest)).2 =
          (train_step F d opts (shardBatch d (selectBatch ds p))).2 ::
            (runSteps F d ds (train_step F d opts
              (shardBatch d (selectBatch ds p))).1 rest).2 := rfl
      rw [he, List.mem_cons] at hms
      rcases hms with hms | hms
      · subst hms
        exact train_step_metrics_replicate F d opts _ hopts
      · exact ih _ (by rw [train_step_fst_length, hopts]) ms hms

theorem headD_replicate (d : ℕ) (hd : 0 < d) (v w : α) :
    (List.replicate d v).headD w = v := by
  cases d with
  | zero => omega
  | succ k => simp [List.replicate_succ]

theorem flat_mean_of_replicate (proj : Metrics → ℚ) (d : ℕ) (hd : 0 < d) :
    ∀ (L : List (List Metrics)),
      (∀ ms ∈ L, ∃ v, ms = List.replicate d v) →
      (L.map (fun ms => ms.map proj)).flatten.sum =
          (d : ℚ) * (L.map (fun ms => proj (ms.headD default))).sum
        ∧ (L.map (fun ms => ms.map proj)).flatten.length = L.length * d := by
  intro L
  induction L with
  | nil => intro _; simp
  | cons ms rest ih =>
      intro hL
      obtain ⟨v, hv⟩ := hL ms (by simp)
      have hrest := ih (fun x hx => hL x (by simp [hx]))
      subst hv
      constructor
      · simp only [List.map_cons, List.flatten_cons, List.sum_append, List.sum_cons]
        rw [hrest.1, List.map_replicate, List.sum_replicate,
          headD_replicate d hd v default, nsmul_eq_mul]
        ring
      · simp only [List.map_cons, List.flatten_cons, List.length_append,
          List.length_cons]
        rw [hrest.2, List.map_replicate, List.length_replicate]
        ring

theorem epochMetricsOf_replicate (d : ℕ) (hd : 0 < d) (L : List (List Metrics))
    (hL : ∀ ms ∈ L, ∃ v, ms = List.replicate d v) :
    epochMetricsOf L =
      ⟨qmean (L.map (fun ms => (ms.headD default).loss)),
       qmean (L.map (fun ms => (ms.headD default).accuracy))⟩ := by
  have h1 := flat_mean_of_replicate Metrics.loss d hd L hL
  have h2 := flat_mean_of_replicate Metrics.accuracy d hd L hL
  have hdq : ((d : ℚ)) ≠ 0 := by
    exact_mod_cast Nat.pos_iff_ne_zero.mp hd
  unfold epochMetricsOf qmean
  simp only [List.length_map]
  congr 1
  · rw [h1.1, h1.2, Nat.cast_mul, mul_comm ((L.length : ℚ)) ((d : ℚ))]
    exact mul_div_mul_left _ _ hdq
  · rw [h2.1, h2.2, Nat.cast_mul, mul_comm ((L.length : ℚ)) ((d : ℚ))]
    exact mul_div_mul_left _ _ hdq

theorem train_epoch_eq_ok (F : Framework M S G) (lib : NumpyLib) (d : ℕ)
    (opts : List (Optim M S)) (ds : Dataset) (bs e : ℕ) (rs : RandomState)
    (hdiv : bs % d = 0) (hsteps : 1 ≤ ds.image.length / bs) :
    train_epoch F lib d opts ds bs e rs =
      .ok ((runSteps F d ds opts (epochPerms lib rs ds.image.length bs)).1,
           epochMetricsOf (runSteps F d ds opts (epochPerms lib rs ds.image.length bs)).2,
           [.trainLine e
             (epochMetricsOf (runSteps F d ds opts
               (epochPerms lib rs ds.image.length bs)).2).loss
             (epochMetricsOf (runSteps F d ds opts
               (epochPerms lib rs ds.image.length bs)).2).accuracy],
           ⟨rs.seed, rs.calls + 1⟩) := by
  have hne : (runSteps F d ds opts (epochPerms lib rs ds.image.length bs)).2 ≠ [] := by
    intro hnil
    have := runSteps_snd_length F d ds (epochPerms lib rs ds.image.length bs) opts
    rw [hnil] at this
    simp only [List.length_nil] at this
    have hlen : (epochPerms lib rs ds.image.length bs).length = ds.image.length / bs := by
      simp [epochPerms, chunks_length]
    omega
  unfold train_epoch
  simp only [hdiv, ne_eq, not_true_eq_false, if_false, ite_false]
  rcases hr : runSteps F d ds opts (epochPerms lib rs ds.image.length bs) with ⟨o2, bm⟩
  have hbm : bm.isEmpty = false := by
    cases bm with
    | nil => exact absurd (by rw [hr]) hne
    | cons a t => rfl
  simp [hbm]

/-- C7: for every epoch that runs, the epoch-level metric reported for each
key equals the arithmetic mean over the epoch's steps of the per-step metric
value (the common value all devices hold for that step after `pmean`; the
code's `onp.mean` over the steps-by-devices array collapses to exactly this
mean because each step's device row is constant). -/
theorem c7_epoch_metric_is_step_mean (M S G : Type) (F : Framework M S G)
    (lib : NumpyLib) (d : ℕ) (opts : List (Optim M S)) (ds : Dataset)
    (bs e : ℕ) (rs : RandomState)
    (hd : 0 < d) (hopts : opts.length = d) (hdiv : bs % d = 0)
    (hsteps : 1 ≤ ds.image.length / bs) :
    ∃ o lg rs2,
      train_epoch F lib d opts ds bs e rs =
        .ok (o,
          ⟨qmean ((runSteps F d ds opts (epochPerms lib rs ds.image.length bs)).2.map
              (fun ms => (ms.headD default).loss)),
           qmean ((runSteps F d ds opts (epochPerms lib rs ds.image.length bs)).2.map
              (fun ms => (ms.headD default).accuracy))⟩,
          lg, rs2) := by
  have hmetr := epochMetricsOf_replicate d hd
    (runSteps F d ds opts (epochPerms lib rs ds.image.length bs)).2
    (runSteps_metrics_replicate F d ds (epochPerms lib rs ds.image.length bs) opts hopts)
  refine ⟨(runSteps F d ds opts (epochPerms lib rs ds.image.length bs)).1,
    [.trainLine e
      (epochMetricsOf (runSteps F d ds opts (epochPerms lib rs ds.image.length bs)).2).loss
      (epochMetricsOf (runSteps F d ds opts
        (epochPerms lib rs ds.image.length bs)).2).accuracy],
    ⟨rs.seed, rs.calls + 1⟩, ?_⟩
  rw [train_epoch_eq_ok F lib d opts ds bs e rs hdiv hsteps, hmetr]

/-- Witness for C7: one device, batch size 2, the 4-example dataset. -/
theorem c7_witness :
    ∃ o lg rs2,
      train_epoch demoF idNumpy 1 [⟨0, 0⟩] demoDs 2 1 ⟨0, 0⟩ =
        .ok (o,
          ⟨qmean ((runSteps demoF 1 demoDs [⟨0, 0⟩]
              (epochPerms idNumpy ⟨0, 0⟩ demoDs.image.length 2)).2.map
              (fun ms => (ms.headD default).loss)),
           qmean ((runSteps demoF 1 demoDs [⟨0, 0⟩]
              (epochPerms idNumpy ⟨0, 0⟩ demoDs.image.length 2)).2.map
              (fun ms => (ms.headD default).accuracy))⟩,
          lg, rs2) :=
  c7_epoch_metric_is_step_mean ℚ ℚ ℚ demoF idNumpy 1 [⟨0, 0⟩] demoDs 2 1 ⟨0, 0⟩
    (by decide) (by decide) (by decide) (by decide)

theorem trainLoop_log_spec [Inhabited M] (F : Framework M S G) (lib : NumpyLib) (d : ℕ)
    (train_ds test_ds : Dataset) (bs : ℕ)
    (hdiv : bs % d = 0) (hsteps : 1 ≤ train_ds.image.length / bs) :
    ∀ (count epoch : ℕ) (opts : List (Optim M S)) (rs : RandomState),
      ∃ optsF logs rsF,
        trainLoop F lib d train_ds test_ds bs count epoch opts rs = .ok (optsF, logs, rsF)
        ∧ ∀ e2 : ℕ,
            (logs.countP (isTrainLineFor e2) =
              if epoch ≤ e2 ∧ e2 < epoch + count then 1 else 0)
            ∧ (logs.countP (isEvalLineFor e2) =
              if epoch ≤ e2 ∧ e2 < epoch + count then 1 else 0) := by
  intro count
  induction count with
  | zero =>
      intro epoch opts rs
      refine ⟨opts, [], rs, rfl, ?_⟩
      intro e2
      constructor <;> · simp only [List.countP_nil]; split_ifs <;> omega
  | succ k ih =>
      intro epoch opts rs
      obtain ⟨oF, logs, rF, hloop, hcount⟩ :=
        ih (epoch + 1)
          (runSteps F d train_ds opts (epochPerms lib rs train_ds.image.length bs)).1
          ⟨rs.seed, rs.calls + 1⟩
      have hepoch := train_epoch_eq_ok F lib d opts train_ds bs epoch rs hdiv hsteps
      refine ⟨oF,
        .trainLine epoch
            (epochMetricsOf (runSteps F d train_ds opts
              (epochPerms lib rs train_ds.image.length bs)).2).loss
            (epochMetricsOf (runSteps F d train_ds opts
              (epochPerms lib rs train_ds.image.length bs)).2).accuracy ::
          .evalLine epoch
            (eval_model F (device_get_first ((runSteps F d train_ds opts
              (epochPerms lib rs train_ds.image.length bs)).1.map Optim.target)) test_ds).1
            (eval_model F (device_get_first ((runSteps F d train_ds opts
              (epochPerms lib rs train_ds.image.length bs)).1.map Optim.target)) test_ds).2 ::
          logs, rF, ?_, ?_⟩
      · simp only [trainLoop, hepoch, Except.bind, bind, hloop]
        rfl
      · intro e2
        have h1 := (hcount e2).1
        have h2 := (hcount e2).2
        constructor
        · simp only [List.countP_cons, isTrainLineFor, isEvalLineFor, h1]
          split_ifs <;> simp_all <;> omega
        · simp only [List.countP_cons, isTrainLineFor, isEvalLineFor, h2]
          split_ifs <;> simp_all <;> omega

/-- C4: for every epoch e from 1 to num_epochs, the run's log contains exactly
one train loss/accuracy line for e (logged by `train_epoch`) and exactly one
eval loss/accuracy line for e (logged by `train` after `eval_model` on the
test set). -/
theorem c4_one_train_one_eval_line_per_epoch (M S G : Type) [Inhabited M]
    (F : Framework M S G) (lib : NumpyLib) (d osEntropy : ℕ)
    (train_ds test_ds : Dataset) (flags : Flags)
    (hdiv : flags.batch_size % d = 0)
    (hsteps : 1 ≤ train_ds.image.length / flags.batch_size) :
    ∃ optsF logs,
      train F lib d osEntropy train_ds test_ds flags = .ok (optsF, logs)
      ∧ ∀ e, 1 ≤ e → e ≤ flags.num_epochs →
          logs.countP (isTrainLineFor e) = 1 ∧ logs.countP (isEvalLineFor e) = 1 := by
  obtain ⟨oF, logs, rF, hloop, hcount⟩ :=
    trainLoop_log_spec F lib d train_ds test_ds flags.batch_size hdiv hsteps
      flags.num_epochs 1
      (create_optimizer F d (F.create_model (PRNGKey 0)) flags.learning_rate flags.momentum)
      (RandomState.new (some 0) osEntropy)
  refine ⟨oF, logs, ?_, ?_⟩
  · have hloop2 := hloop
    simp only [PRNGKey] at hloop2
    simp only [train, PRNGKey, hloop2, Except.bind, bind]
  · intro e he1 he2
    have h := hcount e
    constructor
    · rw [h.1, if_pos ⟨he1, by omega⟩]
    · rw [h.2, if_pos ⟨he1, by omega⟩]

/-- Witness for C4: one device, batch size 2, two epochs on the 4-example
dataset. -/
theorem c4_witness :
    ∃ optsF logs,
      train demoF idNumpy 1 0 demoDs demoDs ⟨1, 1, 2, 2⟩ = .ok (optsF, logs)
      ∧ ∀ e, 1 ≤ e → e ≤ (⟨1, 1, 2, 2⟩ : Flags).num_epochs →
          logs.countP (isTrainLineFor e) = 1 ∧ logs.countP (isEvalLineFor e) = 1 :=
  c4_one_train_one_eval_line_per_epoch ℚ ℚ ℚ demoF idNumpy 1 0 demoDs demoDs
    ⟨1, 1, 2, 2⟩ (by decide) (by decide)

/-- C10: `train` is deterministic. Two runs on the same datasets and flags —
differing only in the ambient OS entropy a seedless generator would have
consumed — produce the identical result (final replicated optimizer and full
metric log) and draw the identical batch orderings, because the script fixes
`PRNGKey(0)` for model initialisation and `RandomState(0)` for shuffling. -/
theorem c10_train_deterministic (M S G : Type) [Inhabited M] (F : Framework M S G)
    (lib : NumpyLib) (d env1 env2 : ℕ) (train_ds test_ds : Dataset) (flags : Flags) :
    train F lib d env1 train_ds test_ds flags = train F lib d env2 train_ds test_ds flags
    ∧ trainPerms lib env1 train_ds flags = trainPerms lib env2 train_ds flags :=
  ⟨rfl, rfl⟩

end MnistTrain
